import Mathlib

/-!
Redis output binding (`bindings/redis/redis.go`).

A shallow embedding of the Redis output binding and proofs of its contract.

Modelling conventions.

* Go `string` and `[]byte` are byte sequences.  A `string` is `GoString`, a
  `[]byte` is `Bytes`; slices are modelled by their contents.
* A Go `error` is `Option GoError` (`none` is the `nil` error); a pointer to a
  response is `Option InvokeResponse` (`none` is the `nil` pointer).
* The store client is the interface `rediscomponent.RedisClient`.  Its methods
  are arbitrary state transformers over a type `σ` of client-and-server
  states.  Every call made on the client is appended to the trace of the
  `World`, so that "which store calls were made, in which order and with
  which arguments" is observable.
* A method of the binding returns `none` when the Go code panics (a method
  call on a nil interface, a call of a nil function value, a field read
  through a nil pointer).
* The request pointer and the receiver are taken to be non-nil.
-/

namespace RedisBinding

/-! ## Go values -/

abbrev Byte := UInt8

/-- Go `string`: an immutable sequence of bytes. -/
structure GoString where
  bytes : List Byte
  deriving DecidableEq

/-- Go `[]byte`, modelled by its contents. -/
abbrev Bytes := List Byte

/-- A string literal of the source, as the UTF-8 bytes the Go compiler stores. -/
def str (s : String) : GoString := ⟨s.toUTF8.data.toList⟩

instance : Append GoString := ⟨fun a b => ⟨a.bytes ++ b.bytes⟩⟩

/-- The conversion `[]byte(s)`. -/
def bytesOfString (s : GoString) : Bytes := s.bytes

/-- The conversion `string(b)`. -/
def stringOfBytes (b : Bytes) : GoString := ⟨b⟩

/-- Go `error` values.  `errors.New`, and `fmt.Errorf` with no `%w` verb, both
build an `*errors.errorString`; any other error type, such as the ones the
store client produces, is `other` when it has no `Format` method and
`formatter` when it implements `fmt.Formatter`: `text` is what `Error()`
returns and `formatted` is what its `Format` method writes for the verb `%s`. -/
inductive GoError
  | errorString (s : GoString)
  | other (tag : Nat) (s : GoString)
  | formatter (tag : Nat) (text : GoString) (formatted : GoString)
  deriving DecidableEq

/-- The method `Error()`. -/
def GoError.Error : GoError → GoString
  | .errorString s => s
  | .other _ s => s
  | .formatter _ text _ => text

/-- Whether the error type implements `fmt.Formatter`. -/
def GoError.implementsFormatter : GoError → Bool
  | .formatter _ _ _ => true
  | _ => false

/-- What package `fmt` prints for an error operand of the verb `%s`: the
output of `Format` when the operand implements `fmt.Formatter`, and the
`Error()` text otherwise. -/
def GoError.verbS : GoError → GoString
  | .formatter _ _ formatted => formatted
  | e => e.Error

/-- An operand of a `fmt` call: a value of a string type, or an `error`. -/
inductive Operand
  | ofString (s : GoString)
  | ofError (e : GoError)
  deriving DecidableEq

/-- What package `fmt` prints for an operand of the verb `%s`. -/
def Operand.verbS : Operand → GoString
  | .ofString s => s
  | .ofError e => e.verbS

/-- The function `errors.New`. -/
def errorsNew (text : GoString) : GoError := .errorString text

/-- Expansion of the `%s` verbs of a format (bytes 37 and 115) by the operands,
in order.  Only `%s` occurs in this file, with operands of a string type or of
type `error`; an operand that is missing prints as `%!s(MISSING)`. -/
def formatVerbs : List Byte → List Operand → List Byte
  | [], _ => []
  | [b], _ => [b]
  | b :: c :: rest, args =>
    if b = 37 ∧ c = 115 then
      match args with
      | a :: more => a.verbS.bytes ++ formatVerbs rest more
      | [] => (str "%!s(MISSING)").bytes ++ formatVerbs rest []
    else b :: formatVerbs (c :: rest) args

/-- The function `fmt.Errorf` for formats with `%s` verbs and no `%w`. -/
def fmtErrorf (format : GoString) (args : List Operand) : GoError :=
  .errorString ⟨formatVerbs format.bytes args⟩

/-- Go `map[string]string` as an association list (the nil map is `[]`). -/
abbrev GoMap := List (GoString × GoString)

/-- The two-result index expression `v, ok := m[k]`. -/
def mapIndex : GoMap → GoString → GoString × Bool
  | [], _ => (str "", false)
  | (k', v) :: rest, k => if k' = k then (v, true) else mapIndex rest k

/-! ## The `bindings` package types used by the binding -/

/-- The type `bindings.OperationKind`, a string type. -/
abbrev OperationKind := GoString

/-- The three operation-kind constants of package `bindings` that the binding
refers to.  They are declared outside this file, so they are parameters. -/
structure OperationKinds where
  CreateOperation : OperationKind
  GetOperation : OperationKind
  DeleteOperation : OperationKind

/-- The case constants of the `switch` in `Invoke` are pairwise different (the
Go compiler refuses an expression switch with a repeated constant case). -/
def OperationKinds.Distinct (K : OperationKinds) : Prop :=
  K.DeleteOperation ≠ K.GetOperation ∧ K.DeleteOperation ≠ K.CreateOperation ∧
    K.GetOperation ≠ K.CreateOperation

instance (K : OperationKinds) : Decidable K.Distinct := by
  unfold OperationKinds.Distinct; infer_instance

/-- A sample assignment of the constants, used for concrete evaluations. -/
def sampleKinds : OperationKinds where
  CreateOperation := str "create"
  GetOperation := str "get"
  DeleteOperation := str "delete"

/-- The struct `bindings.InvokeRequest`. -/
structure InvokeRequest where
  Data : Bytes
  Metadata : GoMap
  Operation : OperationKind

/-- The struct `bindings.InvokeResponse`; `Invoke` only ever sets `Data`. -/
structure InvokeResponse where
  Data : Bytes
  deriving DecidableEq

/-- The struct `bindings.Metadata`; `Init` only reads `Properties`. -/
structure BindingsMetadata where
  Properties : GoMap

/-- The struct `rediscomponent.Settings`; the binding only reads `Host`. -/
structure Settings where
  Host : GoString
  deriving DecidableEq

/-- A `logger.Logger` handle. -/
structure Logger where
  id : Nat
  deriving DecidableEq

/-! ## Contexts, the store client and the world -/

/-- Values of `context.Context`: the nil interface, `context.Background()`, a
child made by `context.WithCancel`, or any context of the host. -/
inductive Context
  | nil
  | background
  | withCancel (parent : Context) (serial : Nat)
  | host (id : Nat)
  deriving DecidableEq

/-- A `context.CancelFunc`: cancels the context made with serial `target`. -/
structure CancelFunc where
  target : Nat
  deriving DecidableEq

/-- An operand of the variadic `DoWrite(ctx, args ...interface{})`. -/
inductive Arg
  | ofString (s : GoString)
  | ofBytes (b : Bytes)
  deriving DecidableEq

/-- Observable events: the calls on the store client, and cancellations. -/
inductive Event
  | Del (ctx : Context) (key : GoString)
  | Get (ctx : Context) (key : GoString)
  | DoWrite (ctx : Context) (args : List Arg)
  | PingResult (ctx : Context)
  | Close
  | Cancel (target : Nat)
  deriving DecidableEq

/-- Whether an event is a call on the store client. -/
def Event.isStoreCall : Event → Bool
  | .Cancel _ => false
  | _ => true

/-- The methods of `rediscomponent.RedisClient` that the binding calls, each
an arbitrary transformer of the client-and-server state `σ`. -/
structure RedisClient (σ : Type) where
  Del : Context → GoString → σ → Option GoError × σ
  Get : Context → GoString → σ → (GoString × Option GoError) × σ
  DoWrite : Context → List Arg → σ → Option GoError × σ
  PingResult : Context → σ → (GoString × Option GoError) × σ
  Close : σ → Option GoError × σ

/-- Everything outside the binding: the client-and-server state, the trace of
events so far, and the serial of the next context `context.WithCancel` makes. -/
structure World (σ : Type) where
  store : σ
  trace : List Event
  nextCtx : Nat
  deriving DecidableEq

/-- The store calls of a trace. -/
def storeCalls (t : List Event) : List Event := t.filter Event.isStoreCall

/-- Whether a context has been cancelled through its `CancelFunc`. -/
def World.cancelled {σ : Type} (w : World σ) : Context → Bool
  | .withCancel _ n => decide (Event.Cancel n ∈ w.trace)
  | _ => false

/-- The function `context.WithCancel`: a fresh child and its cancel function. -/
def WithCancel {σ : Type} (parent : Context) (w : World σ) :
    (Context × CancelFunc) × World σ :=
  ((.withCancel parent w.nextCtx, ⟨w.nextCtx⟩), { w with nextCtx := w.nextCtx + 1 })

/-- Calling a `CancelFunc`. -/
def CancelFunc.call {σ : Type} (f : CancelFunc) (w : World σ) : World σ :=
  { w with trace := w.trace ++ [Event.Cancel f.target] }

/-- The call `client.Del(ctx, key)`, recorded in the trace. -/
def callDel {σ : Type} (c : RedisClient σ) (ctx : Context) (key : GoString) (w : World σ) :
    Option GoError × World σ :=
  ((c.Del ctx key w.store).1,
    { w with store := (c.Del ctx key w.store).2, trace := w.trace ++ [Event.Del ctx key] })

/-- The call `client.Get(ctx, key)`, recorded in the trace. -/
def callGet {σ : Type} (c : RedisClient σ) (ctx : Context) (key : GoString) (w : World σ) :
    (GoString × Option GoError) × World σ :=
  ((c.Get ctx key w.store).1,
    { w with store := (c.Get ctx key w.store).2, trace := w.trace ++ [Event.Get ctx key] })

/-- The call `client.DoWrite(ctx, args...)`, recorded in the trace. -/
def callDoWrite {σ : Type} (c : RedisClient σ) (ctx : Context) (args : List Arg)
    (w : World σ) : Option GoError × World σ :=
  ((c.DoWrite ctx args w.store).1,
    { w with store := (c.DoWrite ctx args w.store).2,
             trace := w.trace ++ [Event.DoWrite ctx args] })

/-- The call `client.PingResult(ctx)`, recorded in the trace. -/
def callPingResult {σ : Type} (c : RedisClient σ) (ctx : Context) (w : World σ) :
    (GoString × Option GoError) × World σ :=
  ((c.PingResult ctx w.store).1,
    { w with store := (c.PingResult ctx w.store).2,
             trace := w.trace ++ [Event.PingResult ctx] })

/-- The call `client.Close()`, recorded in the trace. -/
def callClose {σ : Type} (c : RedisClient σ) (w : World σ) : Option GoError × World σ :=
  ((c.Close w.store).1,
    { w with store := (c.Close w.store).2, trace := w.trace ++ [Event.Close] })

/-- The function `rediscomponent.ParseClientFromProperties(properties,
defaultSettings)`, declared outside this file: it returns a client, the
settings and an error, and may change the client-and-server state. -/
abbrev ParseClientFromProperties (σ : Type) :=
  GoMap → Option Settings → σ →
    (Option (RedisClient σ) × Option Settings × Option GoError) × σ

/-! ## The binding -/

/-- The struct `Redis`. -/
structure Redis (σ : Type) where
  client : Option (RedisClient σ)
  clientSettings : Option Settings
  logger : Logger
  ctx : Context
  cancel : Option CancelFunc

/-- The constructor `NewRedis`. -/
def NewRedis {σ : Type} (logger : Logger) : Redis σ :=
  { client := none, clientSettings := none, logger := logger, ctx := .nil, cancel := none }

/-- The format of the connection error of `Init` and `Ping`. -/
def connectFormat : GoString := str "redis binding: error connecting to redis at %s: %s"

/-- The method `Redis.Init`. -/
def Init {σ : Type} (parse : ParseClientFromProperties σ) (r : Redis σ)
    (meta : BindingsMetadata) (w : World σ) : Option (Option GoError × Redis σ × World σ) :=
  let p := parse meta.Properties none w.store
  let r1 : Redis σ := { r with client := p.1.1, clientSettings := p.1.2.1 }
  let w1 : World σ := { w with store := p.2 }
  match p.1.2.2 with
  | some err => some (some err, r1, w1)
  | none =>
    let cc := WithCancel Context.background w1
    let r2 : Redis σ := { r1 with ctx := cc.1.1, cancel := some cc.1.2 }
    match r2.client with
    | none => none
    | some c =>
      let pr := callPingResult c r2.ctx cc.2
      match pr.1.2 with
      | some err =>
        match r2.clientSettings with
        | none => none
        | some st => some (some (fmtErrorf connectFormat
            [Operand.ofString st.Host, Operand.ofError err]), r2, pr.2)
      | none => some (none, r2, pr.2)

/-- The method `Redis.Ping`. -/
def Ping {σ : Type} (r : Redis σ) (w : World σ) : Option (Option GoError × World σ) :=
  match r.client with
  | none => none
  | some c =>
    let pr := callPingResult c r.ctx w
    match pr.1.2 with
    | some err =>
      match r.clientSettings with
      | none => none
      | some st => some (some (fmtErrorf connectFormat
          [Operand.ofString st.Host, Operand.ofError err]), pr.2)
    | none => some (none, pr.2)

/-- The method `Redis.Operations`. -/
def Operations {σ : Type} (K : OperationKinds) (_r : Redis σ) : List OperationKind :=
  [K.CreateOperation, K.DeleteOperation, K.GetOperation]

/-- The method `Redis.Invoke`. -/
def Invoke {σ : Type} (K : OperationKinds) (r : Redis σ) (ctx : Context)
    (req : InvokeRequest) (w : World σ) :
    Option ((Option InvokeResponse × Option GoError) × World σ) :=
  let key := (mapIndex req.Metadata (str "key")).1
  let ok := (mapIndex req.Metadata (str "key")).2
  if ok = true ∧ key ≠ str "" then
    if req.Operation = K.DeleteOperation then
      match r.client with
      | none => none
      | some c =>
        let d := callDel c ctx key w
        match d.1 with
        | some err => some ((none, some err), d.2)
        | none => some ((none, none), d.2)
    else if req.Operation = K.GetOperation then
      match r.client with
      | none => none
      | some c =>
        let g := callGet c ctx key w
        match g.1.2 with
        | some err => some ((none, some err), g.2)
        | none => some ((some { Data := bytesOfString g.1.1 }, none), g.2)
    else if req.Operation = K.CreateOperation then
      match r.client with
      | none => none
      | some c =>
        let d := callDoWrite c ctx [Arg.ofString (str "SET"), Arg.ofString key,
          Arg.ofBytes req.Data] w
        match d.1 with
        | some err => some ((none, some err), d.2)
        | none => some ((none, none), d.2)
    else
      some ((none, some (fmtErrorf (str "invalid operation type: %s")
        [Operand.ofString req.Operation])), w)
  else
    some ((none, some (errorsNew (str "redis binding: missing key in request metadata"))), w)

/-- The method `Redis.Close`. -/
def Close {σ : Type} (r : Redis σ) (w : World σ) : Option (Option GoError × World σ) :=
  match r.cancel with
  | none => none
  | some cancel =>
    let w1 := cancel.call w
    match r.client with
    | none => none
    | some c => some (callClose c w1)

/-! ## An in-memory store, for concrete evaluations -/

/-- State of the in-memory store: the stored values and whether the server
answers. -/
structure MemStore where
  values : List (GoString × Bytes)
  reachable : Bool
  deriving DecidableEq

/-- The value stored under a key. -/
def memLookup : List (GoString × Bytes) → GoString → Option Bytes
  | [], _ => none
  | (k', v) :: rest, k => if k' = k then some v else memLookup rest k

/-- The error of the in-memory client when the server does not answer. -/
def memRefused : GoError := .other 1 (str "connection refused")

/-- The error of the in-memory client for an absent key. -/
def memNil : GoError := .other 2 (str "redis: nil")

/-- The error of the in-memory client for a command it does not know. -/
def memUnknown : GoError := .other 3 (str "ERR unknown command")

/-- An in-memory store client: `SET key value` stores the value, `Get` reads
it back, `Del` removes it; every call fails while the server is unreachable. -/
def memClient : RedisClient MemStore where
  Del := fun _ k s =>
    if s.reachable then (none, { s with values := s.values.filter (fun p => p.1 ≠ k) })
    else (some memRefused, s)
  Get := fun _ k s =>
    if s.reachable then
      match memLookup s.values k with
      | some v => ((stringOfBytes v, none), s)
      | none => ((str "", some memNil), s)
    else ((str "", some memRefused), s)
  DoWrite := fun _ args s =>
    if s.reachable then
      match args with
      | [Arg.ofString cmd, Arg.ofString k, Arg.ofBytes v] =>
        if cmd = str "SET" then (none, { s with values := (k, v) :: s.values })
        else (some memUnknown, s)
      | _ => (some memUnknown, s)
    else (some memRefused, s)
  PingResult := fun _ s =>
    if s.reachable then ((str "PONG", none), s) else ((str "", some memRefused), s)
  Close := fun s => (none, { s with reachable := false })

/-- A configuration parser for the in-memory client: the host is the property
`redisHost`. -/
def memParse : ParseClientFromProperties MemStore :=
  fun props _ s => ((some memClient, some ⟨(mapIndex props (str "redisHost")).1⟩, none), s)

/-- An adapter holding the in-memory client. -/
def memRedis : Redis MemStore :=
  { client := some memClient, clientSettings := some ⟨str "localhost:6379"⟩,
    logger := ⟨0⟩, ctx := .withCancel .background 0, cancel := some ⟨0⟩ }

/-- A world with an empty, reachable in-memory store. -/
def memWorld : World MemStore := ⟨⟨[], true⟩, [], 1⟩

/-- A world holding the value "42" under the key "x". -/
def memWorldX : World MemStore := ⟨⟨[(str "x", [52, 50])], true⟩, [], 1⟩

/-- A world whose server does not answer. -/
def memWorldDown : World MemStore := ⟨⟨[], false⟩, [], 1⟩

/-- The properties of a configuration naming the host "localhost:6379". -/
def memMeta : BindingsMetadata := ⟨[(str "redisHost", str "localhost:6379")]⟩

/-- An error of a type that implements `fmt.Formatter`: `Error()` returns
"boom" and `Format` writes "FORMATTED<boom>" for the verb `%s`. -/
def fmtBoom : GoError := .formatter 4 (str "boom") (str "FORMATTED<boom>")

/-- The in-memory client with a ping that always fails with `fmtBoom`. -/
def fmtClient : RedisClient MemStore :=
  { memClient with PingResult := fun _ s => ((str "", some fmtBoom), s) }

/-- A configuration parser that hands out `fmtClient`. -/
def fmtParse : ParseClientFromProperties MemStore :=
  fun props _ s => ((some fmtClient, some ⟨(mapIndex props (str "redisHost")).1⟩, none), s)

/-- An adapter holding `fmtClient`. -/
def fmtRedis : Redis MemStore :=
  { client := some fmtClient, clientSettings := some ⟨str "localhost:6379"⟩,
    logger := ⟨0⟩, ctx := .withCancel .background 0, cancel := some ⟨0⟩ }

/-- The law of a store client in which a successful `SET` of a key makes the
next `Get` of that key return the value that was set, without error. -/
def SetThenGet {σ : Type} (c : RedisClient σ) : Prop :=
  ∀ (ctx ctx' : Context) (k : GoString) (v : Bytes) (s : σ),
    (c.DoWrite ctx [Arg.ofString (str "SET"), Arg.ofString k, Arg.ofBytes v] s).1 = none →
      (c.Get ctx' k
        (c.DoWrite ctx [Arg.ofString (str "SET"), Arg.ofString k, Arg.ofBytes v] s).2).1
        = (stringOfBytes v, none)

/-! ## Auxiliary lemmas -/

theorem GoString.bytes_append (a b : GoString) : (a ++ b).bytes = a.bytes ++ b.bytes := rfl

theorem GoString.append_def (a b : GoString) : a ++ b = ⟨a.bytes ++ b.bytes⟩ := rfl

theorem formatVerbs_cons_ne (b : Byte) (hb : b ≠ 37) (l : List Byte) (args : List Operand) :
    formatVerbs (b :: l) args = b :: formatVerbs l args := by
  cases l with
  | nil => simp [formatVerbs]
  | cons c t => simp [formatVerbs, hb]

theorem formatVerbs_literal (p : List Byte) (hp : (37 : Byte) ∉ p) (rest : List Byte)
    (args : List Operand) : formatVerbs (p ++ rest) args = p ++ formatVerbs rest args := by
  induction p with
  | nil => rfl
  | cons b p ih =>
    have hb : b ≠ 37 := fun h => hp (by simp [h])
    have hp' : (37 : Byte) ∉ p := fun h => hp (List.mem_cons_of_mem _ h)
    rw [List.cons_append, formatVerbs_cons_ne b hb, ih hp', List.cons_append]

theorem formatVerbs_verb (rest : List Byte) (a : Operand) (more : List Operand) :
    formatVerbs (37 :: 115 :: rest) (a :: more) = a.verbS.bytes ++ formatVerbs rest more := by
  simp [formatVerbs]

set_option maxRecDepth 100000 in
/-- The text of the error for an operation kind that is not supported. -/
theorem invalidOperation_text (op : GoString) :
    fmtErrorf (str "invalid operation type: %s") [Operand.ofString op]
      = GoError.errorString (str "invalid operation type: " ++ op) := by
  have hsplit : (str "invalid operation type: %s").bytes
      = (str "invalid operation type: ").bytes ++ [37, 115] := by decide
  have hlit : (37 : Byte) ∉ (str "invalid operation type: ").bytes := by decide
  unfold fmtErrorf
  rw [hsplit, formatVerbs_literal _ hlit, formatVerbs_verb]
  simp [formatVerbs, GoString.append_def, Operand.verbS]

set_option maxRecDepth 100000 in
/-- The text of the connection error of `Init` and `Ping`. -/
theorem connect_text (host : GoString) (cause : GoError) :
    fmtErrorf connectFormat [Operand.ofString host, Operand.ofError cause]
      = GoError.errorString
          (str "redis binding: error connecting to redis at " ++ host ++ str ": "
            ++ cause.verbS) := by
  have hsplit : connectFormat.bytes
      = (str "redis binding: error connecting to redis at ").bytes ++
          (37 :: 115 :: ((str ": ").bytes ++ [37, 115])) := by decide
  have hlit : (37 : Byte) ∉ (str "redis binding: error connecting to redis at ").bytes := by
    decide
  have hlit2 : (37 : Byte) ∉ (str ": ").bytes := by decide
  unfold fmtErrorf
  rw [hsplit, formatVerbs_literal _ hlit, formatVerbs_verb, formatVerbs_literal _ hlit2,
    formatVerbs_verb]
  simp [formatVerbs, GoString.append_def, Operand.verbS]

/-! ## Request validation -/

/-- C1: a request whose metadata has no "key" entry, or maps "key" to the empty
string, is answered with a nil response and the error "redis binding: missing
key in request metadata", for every adapter, operation kind and payload, and
the world is left as it was: no call is made on the store client. -/
theorem invoke_missing_key {σ : Type} (K : OperationKinds) (r : Redis σ) (ctx : Context)
    (req : InvokeRequest) (w : World σ)
    (h : (mapIndex req.Metadata (str "key")).2 = false ∨
      mapIndex req.Metadata (str "key") = (str "", true)) :
    Invoke K r ctx req w
      = some ((none, some (errorsNew (str "redis binding: missing key in request metadata"))),
          w) := by
  unfold Invoke
  rcases h with h | h
  · simp [h]
  · simp [h]

theorem invoke_missing_key_witness :
    (mapIndex ([] : GoMap) (str "key")).2 = false ∧
    Invoke sampleKinds (NewRedis ⟨0⟩) (Context.host 7)
        { Data := [1, 2], Metadata := [], Operation := str "get" } (⟨(), [], 0⟩ : World Unit)
      = some ((none, some (errorsNew (str "redis binding: missing key in request metadata"))),
          ⟨(), [], 0⟩) :=
  ⟨by decide, invoke_missing_key sampleKinds (NewRedis ⟨0⟩) (Context.host 7)
    { Data := [1, 2], Metadata := [], Operation := str "get" } ⟨(), [], 0⟩
    (Or.inl (by decide))⟩

/-- C3: with "key" mapped to a non-empty string and an operation kind that is
none of Create, Get and Delete, the answer is a nil response and the error
whose text is "invalid operation type: " followed by the operation kind, and
the world is left as it was: no call is made on the store client. -/
theorem invoke_invalid_operation {σ : Type} (K : OperationKinds) (r : Redis σ)
    (ctx : Context) (req : InvokeRequest) (w : World σ) (k : GoString)
    (hm : mapIndex req.Metadata (str "key") = (k, true)) (hk : k ≠ str "")
    (hc : req.Operation ≠ K.CreateOperation) (hg : req.Operation ≠ K.GetOperation)
    (hd : req.Operation ≠ K.DeleteOperation) :
    Invoke K r ctx req w
      = some ((none,
          some (GoError.errorString (str "invalid operation type: " ++ req.Operation))), w) := by
  unfold Invoke
  simp [hm, hk, hc, hg, hd, invalidOperation_text]

set_option maxRecDepth 100000 in
theorem invoke_invalid_operation_witness :
    Invoke sampleKinds (NewRedis ⟨0⟩) (Context.host 7)
        { Data := [], Metadata := [(str "key", str "x")], Operation := str "list" }
        (⟨(), [], 0⟩ : World Unit)
      = some ((none, some (GoError.errorString (str "invalid operation type: " ++ str "list"))),
          ⟨(), [], 0⟩) :=
  invoke_invalid_operation sampleKinds (NewRedis ⟨0⟩) (Context.host 7)
    { Data := [], Metadata := [(str "key", str "x")], Operation := str "list" } ⟨(), [], 0⟩
    (str "x") (by decide) (by decide) (by decide) (by decide) (by decide)

set_option maxRecDepth 100000 in
/-- C2, as stated, fails: the request with empty metadata and the operation
kind "list", which is none of the three supported kinds, is answered with the
missing-key error, not with the "invalid operation type" error. -/
theorem invoke_unsupported_without_key :
    str "list" ≠ sampleKinds.CreateOperation ∧ str "list" ≠ sampleKinds.GetOperation ∧
    str "list" ≠ sampleKinds.DeleteOperation ∧
    Invoke sampleKinds (NewRedis ⟨0⟩) (Context.host 7)
        { Data := [], Metadata := [], Operation := str "list" } (⟨(), [], 0⟩ : World Unit)
      = some ((none, some (errorsNew (str "redis binding: missing key in request metadata"))),
          ⟨(), [], 0⟩) ∧
    Invoke sampleKinds (NewRedis ⟨0⟩) (Context.host 7)
        { Data := [], Metadata := [], Operation := str "list" } (⟨(), [], 0⟩ : World Unit)
      ≠ some ((none, some (fmtErrorf (str "invalid operation type: %s")
          [Operand.ofString (str "list")])),
          ⟨(), [], 0⟩) := by
  decide

/-- C2, amended: for an operation kind that is none of Create, Get and Delete
the answer is always a nil response with an error and the world is left as it
was (no store call); the error is the "invalid operation type" error when
"key" is mapped to a non-empty string, and the missing-key error otherwise. -/
theorem invoke_unsupported_operation {σ : Type} (K : OperationKinds) (r : Redis σ)
    (ctx : Context) (req : InvokeRequest) (w : World σ)
    (hc : req.Operation ≠ K.CreateOperation) (hg : req.Operation ≠ K.GetOperation)
    (hd : req.Operation ≠ K.DeleteOperation) :
    Invoke K r ctx req w
      = some ((none,
          some (if (mapIndex req.Metadata (str "key")).2 = true ∧
                  (mapIndex req.Metadata (str "key")).1 ≠ str ""
                then GoError.errorString (str "invalid operation type: " ++ req.Operation)
                else errorsNew (str "redis binding: missing key in request metadata"))),
          w) := by
  unfold Invoke
  by_cases h : (mapIndex req.Metadata (str "key")).2 = true ∧
      (mapIndex req.Metadata (str "key")).1 ≠ str ""
  · rw [if_pos h, if_pos h, if_neg hd, if_neg hg, if_neg hc, invalidOperation_text]
  · rw [if_neg h, if_neg h]

set_option maxRecDepth 100000 in
theorem invoke_unsupported_operation_witness :
    Invoke sampleKinds (NewRedis ⟨0⟩) (Context.host 7)
        { Data := [], Metadata := [(str "key", str "")], Operation := str "list" }
        (⟨(), [], 0⟩ : World Unit)
      = some ((none, some (errorsNew (str "redis binding: missing key in request metadata"))),
          ⟨(), [], 0⟩) :=
  (invoke_unsupported_operation sampleKinds (NewRedis ⟨0⟩) (Context.host 7)
    { Data := [], Metadata := [(str "key", str "")], Operation := str "list" } ⟨(), [], 0⟩
    (by decide) (by decide) (by decide)).trans (by decide)

/-! ## Dispatch to the store client -/

/-- The three dispatch branches of `Invoke`, for an adapter that holds a
client and a request with a non-empty key. -/
theorem invoke_dispatch {σ : Type} (K : OperationKinds) (hK : K.Distinct) (r : Redis σ)
    (c : RedisClient σ) (hc : r.client = some c) (ctx : Context) (req : InvokeRequest)
    (w : World σ) (k : GoString) (hm : mapIndex req.Metadata (str "key") = (k, true))
    (hk : k ≠ str "") :
    (req.Operation = K.DeleteOperation →
      Invoke K r ctx req w = some ((none, (callDel c ctx k w).1), (callDel c ctx k w).2)) ∧
    (req.Operation = K.GetOperation →
      Invoke K r ctx req w =
        some ((match (callGet c ctx k w).1.2 with
               | some err => (none, some err)
               | none => (some ⟨bytesOfString (callGet c ctx k w).1.1⟩, none)),
          (callGet c ctx k w).2)) ∧
    (req.Operation = K.CreateOperation →
      Invoke K r ctx req w =
        some ((none, (callDoWrite c ctx
            [Arg.ofString (str "SET"), Arg.ofString k, Arg.ofBytes req.Data] w).1),
          (callDoWrite c ctx
            [Arg.ofString (str "SET"), Arg.ofString k, Arg.ofBytes req.Data] w).2)) := by
  obtain ⟨hdg, hdc, hgc⟩ := hK
  refine ⟨fun hop => ?_, fun hop => ?_, fun hop => ?_⟩
  · unfold Invoke
    simp only [hm, hk, hop, hc, ne_eq, not_false_eq_true, and_self, if_true]
    cases (callDel c ctx k w).1 <;> rfl
  · unfold Invoke
    simp only [hm, hk, hop, hc, ne_eq, not_false_eq_true, and_self, if_true,
      Ne.symm hdg, if_false]
    cases (callGet c ctx k w).1.2 <;> rfl
  · unfold Invoke
    simp only [hm, hk, hop, hc, ne_eq, not_false_eq_true, and_self, if_true,
      Ne.symm hdc, Ne.symm hgc, if_false]
    cases (callDoWrite c ctx
      [Arg.ofString (str "SET"), Arg.ofString k, Arg.ofBytes req.Data] w).1 <;> rfl

/-- C5: a Get request with a non-empty key makes exactly one store call,
`Get` with the context of the caller and the key; when that call returns a
value with no error, the answer is a nil error and a response whose `Data`
is the bytes of the value; an empty value gives a response with empty `Data`. -/
theorem invoke_get {σ : Type} (K : OperationKinds) (hK : K.Distinct) (r : Redis σ)
    (c : RedisClient σ) (hc : r.client = some c) (ctx : Context) (req : InvokeRequest)
    (w : World σ) (k : GoString) (hm : mapIndex req.Metadata (str "key") = (k, true))
    (hk : k ≠ str "") (hop : req.Operation = K.GetOperation) :
    (Invoke K r ctx req w).map (fun x => x.2)
        = some ⟨(c.Get ctx k w.store).2, w.trace ++ [Event.Get ctx k], w.nextCtx⟩ ∧
    (∀ d : GoString, (c.Get ctx k w.store).1 = (d, none) →
        (Invoke K r ctx req w).map (fun x => x.1) = some (some ⟨bytesOfString d⟩, none)) ∧
    ((c.Get ctx k w.store).1 = (str "", none) →
        (Invoke K r ctx req w).map (fun x => x.1) = some (some ⟨[]⟩, none)) := by
  have h := (invoke_dispatch K hK r c hc ctx req w k hm hk).2.1 hop
  refine ⟨?_, ?_, ?_⟩
  · rw [h]; rfl
  · intro d hd
    rw [h]
    simp [callGet, hd]
  · intro hd
    rw [h]
    simp [callGet, hd, bytesOfString]
    decide

/-- C6: with a non-empty key, a Create request makes exactly one store call,
`DoWrite` with the context of the caller and the operands "SET", the key and
the request data, and a Delete request makes exactly one store call, `Del`
with the context of the caller and the key; when the call returns no error the
answer is a nil response and a nil error. -/
theorem invoke_create_delete {σ : Type} (K : OperationKinds) (hK : K.Distinct) (r : Redis σ)
    (c : RedisClient σ) (hc : r.client = some c) (ctx : Context) (req : InvokeRequest)
    (w : World σ) (k : GoString) (hm : mapIndex req.Metadata (str "key") = (k, true))
    (hk : k ≠ str "") :
    (req.Operation = K.CreateOperation →
      (Invoke K r ctx req w).map (fun x => x.2)
          = some ⟨(c.DoWrite ctx
                [Arg.ofString (str "SET"), Arg.ofString k, Arg.ofBytes req.Data] w.store).2,
              w.trace ++ [Event.DoWrite ctx
                [Arg.ofString (str "SET"), Arg.ofString k, Arg.ofBytes req.Data]],
              w.nextCtx⟩ ∧
      ((c.DoWrite ctx
          [Arg.ofString (str "SET"), Arg.ofString k, Arg.ofBytes req.Data] w.store).1 = none →
        (Invoke K r ctx req w).map (fun x => x.1) = some (none, none))) ∧
    (req.Operation = K.DeleteOperation →
      (Invoke K r ctx req w).map (fun x => x.2)
          = some ⟨(c.Del ctx k w.store).2, w.trace ++ [Event.Del ctx k], w.nextCtx⟩ ∧
      ((c.Del ctx k w.store).1 = none →
        (Invoke K r ctx req w).map (fun x => x.1) = some (none, none))) := by
  obtain ⟨hdel, -, hcreate⟩ := invoke_dispatch K hK r c hc ctx req w k hm hk
  refine ⟨fun hop => ?_, fun hop => ?_⟩
  · rw [hcreate hop]
    refine ⟨rfl, fun hnone => ?_⟩
    simp [callDoWrite, hnone]
  · rw [hdel hop]
    refine ⟨rfl, fun hnone => ?_⟩
    simp [callDel, hnone]

/-- C7: with a non-empty key, when the store call of a Create, Get or Delete
request returns an error, the answer is a nil response and that same error
value, and the store call is the only one made. -/
theorem invoke_store_error {σ : Type} (K : OperationKinds) (hK : K.Distinct) (r : Redis σ)
    (c : RedisClient σ) (hc : r.client = some c) (ctx : Context) (req : InvokeRequest)
    (w : World σ) (k : GoString) (hm : mapIndex req.Metadata (str "key") = (k, true))
    (hk : k ≠ str "") (e : GoError) :
    (req.Operation = K.CreateOperation →
      (c.DoWrite ctx
          [Arg.ofString (str "SET"), Arg.ofString k, Arg.ofBytes req.Data] w.store).1 = some e →
      Invoke K r ctx req w
        = some ((none, some e),
            ⟨(c.DoWrite ctx
                [Arg.ofString (str "SET"), Arg.ofString k, Arg.ofBytes req.Data] w.store).2,
              w.trace ++ [Event.DoWrite ctx
                [Arg.ofString (str "SET"), Arg.ofString k, Arg.ofBytes req.Data]],
              w.nextCtx⟩)) ∧
    (req.Operation = K.GetOperation →
      (c.Get ctx k w.store).1.2 = some e →
      Invoke K r ctx req w
        = some ((none, some e),
            ⟨(c.Get ctx k w.store).2, w.trace ++ [Event.Get ctx k], w.nextCtx⟩)) ∧
    (req.Operation = K.DeleteOperation →
      (c.Del ctx k w.store).1 = some e →
      Invoke K r ctx req w
        = some ((none, some e),
            ⟨(c.Del ctx k w.store).2, w.trace ++ [Event.Del ctx k], w.nextCtx⟩)) := by
  obtain ⟨hdel, hget, hcreate⟩ := invoke_dispatch K hK r c hc ctx req w k hm hk
  refine ⟨fun hop he => ?_, fun hop he => ?_, fun hop he => ?_⟩
  · rw [hcreate hop]
    simp [callDoWrite, he]
  · rw [hget hop]
    simp [callGet, he]
  · rw [hdel hop]
    simp [callDel, he]

theorem invoke_get_witness :
    (Invoke sampleKinds memRedis (Context.host 7)
        { Data := [], Metadata := [(str "key", str "x")], Operation := str "get" }
        memWorldX).map (fun x => x.1)
      = some (some ⟨[52, 50]⟩, none) :=
  (invoke_get sampleKinds (by decide) memRedis memClient rfl (Context.host 7)
    { Data := [], Metadata := [(str "key", str "x")], Operation := str "get" }
    memWorldX (str "x") (by decide) (by decide) (by decide)).2.1 ⟨[52, 50]⟩ (by decide)

theorem invoke_create_delete_witness :
    (Invoke sampleKinds memRedis (Context.host 7)
        { Data := [52, 50], Metadata := [(str "key", str "x")], Operation := str "create" }
        memWorld).map (fun x => x.1)
      = some (none, none) :=
  ((invoke_create_delete sampleKinds (by decide) memRedis memClient rfl (Context.host 7)
    { Data := [52, 50], Metadata := [(str "key", str "x")], Operation := str "create" }
    memWorld (str "x") (by decide) (by decide)).1 (by decide)).2 (by decide)

theorem invoke_store_error_witness :
    Invoke sampleKinds memRedis (Context.host 7)
        { Data := [], Metadata := [(str "key", str "x")], Operation := str "get" }
        memWorldDown
      = some ((none, some memRefused),
          ⟨⟨[], false⟩, [Event.Get (Context.host 7) (str "x")], 1⟩) :=
  (invoke_store_error sampleKinds (by decide) memRedis memClient rfl (Context.host 7)
    { Data := [], Metadata := [(str "key", str "x")], Operation := str "get" }
    memWorldDown (str "x") (by decide) (by decide) memRefused).2.1 (by decide) (by decide)

/-! ## Round trip -/

theorem memLookup_head (k : GoString) (v : Bytes) (l : List (GoString × Bytes)) :
    memLookup ((k, v) :: l) k = some v := by
  simp [memLookup]

theorem memClient_setThenGet : SetThenGet memClient := by
  intro ctx ctx' k v s h
  cases hr : s.reachable with
  | false => simp [memClient, hr] at h
  | true => simp [memClient, hr, memLookup_head]

/-- C4: over a store client in which a successful `SET` of a key makes the
next `Get` of that key return the value set, for every non-empty key `k` and
payload `v` for which the `SET` succeeds, the Create request with key `k` and
data `v` is answered with a nil response and a nil error, and the Get request
with key `k` that follows is answered with a response whose `Data` is `v`. -/
theorem create_get_round_trip {σ : Type} (K : OperationKinds) (hK : K.Distinct)
    (r : Redis σ) (c : RedisClient σ) (hc : r.client = some c) (hlaw : SetThenGet c)
    (k : GoString) (hk : k ≠ str "") (v d : Bytes) (ctx1 ctx2 : Context) (md1 md2 : GoMap)
    (hm1 : mapIndex md1 (str "key") = (k, true)) (hm2 : mapIndex md2 (str "key") = (k, true))
    (w : World σ)
    (hset : (c.DoWrite ctx1
      [Arg.ofString (str "SET"), Arg.ofString k, Arg.ofBytes v] w.store).1 = none) :
    ∃ w1 w2 : World σ,
      Invoke K r ctx1 { Data := v, Metadata := md1, Operation := K.CreateOperation } w
        = some ((none, none), w1) ∧
      Invoke K r ctx2 { Data := d, Metadata := md2, Operation := K.GetOperation } w1
        = some ((some ⟨v⟩, none), w2) := by
  have h1 := (invoke_dispatch K hK r c hc ctx1
    { Data := v, Metadata := md1, Operation := K.CreateOperation } w k hm1 hk).2.2 rfl
  have h2 := (invoke_dispatch K hK r c hc ctx2
    { Data := d, Metadata := md2, Operation := K.GetOperation }
    (callDoWrite c ctx1 [Arg.ofString (str "SET"), Arg.ofString k, Arg.ofBytes v] w).2
    k hm2 hk).2.1 rfl
  refine ⟨(callDoWrite c ctx1 [Arg.ofString (str "SET"), Arg.ofString k, Arg.ofBytes v] w).2,
    (callGet c ctx2 k
      (callDoWrite c ctx1 [Arg.ofString (str "SET"), Arg.ofString k, Arg.ofBytes v] w).2).2,
    ?_, ?_⟩
  · rw [h1]
    simp only [callDoWrite, hset]
  · rw [h2]
    simp only [callGet, callDoWrite, hlaw ctx1 ctx2 k v w.store hset, stringOfBytes,
      bytesOfString]

theorem create_get_round_trip_witness :
    ∃ w1 w2 : World MemStore,
      Invoke sampleKinds memRedis (Context.host 7)
          { Data := [52, 50], Metadata := [(str "key", str "x")],
            Operation := sampleKinds.CreateOperation } memWorld
        = some ((none, none), w1) ∧
      Invoke sampleKinds memRedis (Context.host 8)
          { Data := [], Metadata := [(str "key", str "x")],
            Operation := sampleKinds.GetOperation } w1
        = some ((some ⟨[52, 50]⟩, none), w2) :=
  create_get_round_trip sampleKinds (by decide) memRedis memClient rfl memClient_setThenGet
    (str "x") (by decide) [52, 50] [] (Context.host 7) (Context.host 8)
    [(str "key", str "x")] [(str "key", str "x")] (by decide) (by decide) memWorld
    (by decide)

/-- The end-to-end scenario on the in-memory store: Create of "42" under "x",
then Get of "x", evaluated. -/
theorem round_trip_example :
    Invoke sampleKinds memRedis (Context.host 7)
        { Data := (str "42").bytes, Metadata := [(str "key", str "x")],
          Operation := str "create" } memWorld
      = some ((none, none),
          ⟨⟨[(str "x", (str "42").bytes)], true⟩,
            [Event.DoWrite (Context.host 7)
              [Arg.ofString (str "SET"), Arg.ofString (str "x"),
                Arg.ofBytes (str "42").bytes]], 1⟩) ∧
    ((Invoke sampleKinds memRedis (Context.host 8)
        { Data := [], Metadata := [(str "key", str "x")], Operation := str "get" }
        ⟨⟨[(str "x", (str "42").bytes)], true⟩,
          [Event.DoWrite (Context.host 7)
            [Arg.ofString (str "SET"), Arg.ofString (str "x"),
              Arg.ofBytes (str "42").bytes]], 1⟩).map (fun x => x.1))
      = some (some ⟨(str "42").bytes⟩, none) := by
  decide

/-! ## Liveness: `Init` and `Ping` -/

/-- What a successful `Init` leaves in the adapter: a client, the context made
by `context.WithCancel(context.Background())` and its cancel function. -/
theorem init_success {σ : Type} (parse : ParseClientFromProperties σ) (r0 : Redis σ)
    (meta : BindingsMetadata) (w0 : World σ) (r : Redis σ) (w1 : World σ)
    (hinit : Init parse r0 meta w0 = some (none, r, w1)) :
    ∃ c : RedisClient σ, (parse meta.Properties none w0.store).1.1 = some c ∧
      r.client = some c ∧ r.clientSettings = (parse meta.Properties none w0.store).1.2.1 ∧
      r.ctx = Context.withCancel Context.background w0.nextCtx ∧
      r.cancel = some ⟨w0.nextCtx⟩ := by
  unfold Init at hinit
  simp only at hinit
  split at hinit
  · simp at hinit
  · split at hinit
    · simp at hinit
    · rename_i c hcl
      split at hinit
      · split at hinit
        · simp at hinit
        · simp at hinit
      · simp only [Option.some.injEq, Prod.mk.injEq, true_and] at hinit
        obtain ⟨hr, -⟩ := hinit
        subst hr
        exact ⟨c, hcl, hcl, rfl, rfl, rfl⟩

set_option maxRecDepth 100000 in
/-- C8, as stated, fails: when the ping fails with an error whose type
implements `fmt.Formatter`, with `Error()` text "boom" and `%s` output
"FORMATTED<boom>", the text of the error of `Init` and of `Ping` ends with
"FORMATTED<boom>", not with the `Error()` text of the cause. -/
theorem init_ping_formatter_cause :
    (fmtClient.PingResult (Context.withCancel Context.background 1) ⟨[], true⟩).1.2
      = some fmtBoom ∧
    fmtBoom.Error = str "boom" ∧
    (Init fmtParse (NewRedis ⟨0⟩) memMeta memWorld).map (fun x => x.1)
      = some (some (GoError.errorString
          (str "redis binding: error connecting to redis at localhost:6379: FORMATTED<boom>"))) ∧
    (Init fmtParse (NewRedis ⟨0⟩) memMeta memWorld).map (fun x => x.1)
      ≠ some (some (GoError.errorString
          (str "redis binding: error connecting to redis at " ++ str "localhost:6379"
            ++ str ": " ++ fmtBoom.Error))) ∧
    (Ping fmtRedis memWorld).map (fun x => x.1)
      = some (some (GoError.errorString
          (str "redis binding: error connecting to redis at localhost:6379: FORMATTED<boom>"))) ∧
    (Ping fmtRedis memWorld).map (fun x => x.1)
      ≠ some (some (GoError.errorString
          (str "redis binding: error connecting to redis at " ++ str "localhost:6379"
            ++ str ": " ++ fmtBoom.Error))) := by
  decide

/-- C8, amended: after a configuration parse that succeeds with client `c` and
settings `st`, `Init` returns the error "redis binding: error connecting to
redis at " ++ host ++ ": " ++ cause when the ping of `c` fails, where cause is
what `%s` prints for the ping error: its `Error()` text when its type does
not implement `fmt.Formatter`; `Init` returns nil when the ping succeeds;
`Ping`, on any adapter holding `c` and `st`, does the same; and `Ping` right
after an `Init` that returned nil returns nil when the ping of the client
still succeeds. -/
theorem init_ping_liveness {σ : Type} (parse : ParseClientFromProperties σ) (r0 : Redis σ)
    (meta : BindingsMetadata) (w0 : World σ) (c : RedisClient σ) (st : Settings) (s1 : σ)
    (hparse : parse meta.Properties none w0.store = ((some c, some st, none), s1)) :
    (∀ e : GoError,
      (c.PingResult (Context.withCancel Context.background w0.nextCtx) s1).1.2 = some e →
      (Init parse r0 meta w0).map (fun x => x.1)
          = some (some (GoError.errorString
              (str "redis binding: error connecting to redis at " ++ st.Host ++ str ": "
                ++ e.verbS))) ∧
      (e.implementsFormatter = false →
        (Init parse r0 meta w0).map (fun x => x.1)
          = some (some (GoError.errorString
              (str "redis binding: error connecting to redis at " ++ st.Host ++ str ": "
                ++ e.Error))))) ∧
    ((c.PingResult (Context.withCancel Context.background w0.nextCtx) s1).1.2 = none →
      (Init parse r0 meta w0).map (fun x => x.1) = some none) ∧
    (∀ (r : Redis σ) (w : World σ), r.client = some c → r.clientSettings = some st →
      (∀ e : GoError, (c.PingResult r.ctx w.store).1.2 = some e →
        (Ping r w).map (fun x => x.1)
            = some (some (GoError.errorString
                (str "redis binding: error connecting to redis at " ++ st.Host ++ str ": "
                  ++ e.verbS))) ∧
        (e.implementsFormatter = false →
          (Ping r w).map (fun x => x.1)
            = some (some (GoError.errorString
                (str "redis binding: error connecting to redis at " ++ st.Host ++ str ": "
                  ++ e.Error))))) ∧
      ((c.PingResult r.ctx w.store).1.2 = none →
        (Ping r w).map (fun x => x.1) = some none)) ∧
    (∀ (r : Redis σ) (w : World σ), Init parse r0 meta w0 = some (none, r, w) →
      (c.PingResult r.ctx w.store).1.2 = none → (Ping r w).map (fun x => x.1) = some none) := by
  have hplain : ∀ e : GoError, e.implementsFormatter = false → e.verbS = e.Error := by
    intro e he
    cases e <;> simp_all [GoError.implementsFormatter, GoError.verbS]
  have hInit : ∀ e : GoError,
      (c.PingResult (Context.withCancel Context.background w0.nextCtx) s1).1.2 = some e →
      (Init parse r0 meta w0).map (fun x => x.1)
        = some (some (GoError.errorString
            (str "redis binding: error connecting to redis at " ++ st.Host ++ str ": "
              ++ e.verbS))) := by
    intro e he
    unfold Init
    simp [hparse, WithCancel, callPingResult, he, connect_text]
  have hPing : ∀ (r : Redis σ) (w : World σ), r.client = some c → r.clientSettings = some st →
      ∀ e : GoError, (c.PingResult r.ctx w.store).1.2 = some e →
      (Ping r w).map (fun x => x.1)
        = some (some (GoError.errorString
            (str "redis binding: error connecting to redis at " ++ st.Host ++ str ": "
              ++ e.verbS))) := by
    intro r w hcl hst e he
    unfold Ping
    simp [hcl, hst, callPingResult, he, connect_text]
  refine ⟨fun e he => ⟨hInit e he, fun hf => ?_⟩, fun he => ?_,
    fun r w hcl hst => ⟨fun e he => ⟨hPing r w hcl hst e he, fun hf => ?_⟩, fun he => ?_⟩,
    fun r w hinit he => ?_⟩
  · rw [← hplain e hf]; exact hInit e he
  · unfold Init
    simp [hparse, WithCancel, callPingResult, he]
  · rw [← hplain e hf]; exact hPing r w hcl hst e he
  · unfold Ping
    simp [hcl, callPingResult, he]
  · obtain ⟨c', hc', hcl, -, -, -⟩ := init_success parse r0 meta w0 r w hinit
    rw [hparse] at hc'
    simp only [Option.some.injEq] at hc'
    subst hc'
    unfold Ping
    simp [hcl, callPingResult, he]

set_option maxRecDepth 100000 in
theorem init_ping_liveness_witness :
    (Init memParse (NewRedis ⟨0⟩) memMeta memWorldDown).map (fun x => x.1)
      = some (some (GoError.errorString
          (str "redis binding: error connecting to redis at " ++ str "localhost:6379"
            ++ str ": " ++ str "connection refused"))) :=
  ((init_ping_liveness memParse (NewRedis ⟨0⟩) memMeta memWorldDown memClient
    ⟨str "localhost:6379"⟩ ⟨[], false⟩ rfl).1 memRefused (by decide)).2 (by decide)

/-! ## Supported operations -/

theorem world_trace_grows {σ : Type} (w : World σ) (s : σ) (e : Event) (n : Nat) :
    (⟨s, w.trace ++ [e], n⟩ : World σ) ≠ w := by
  intro h
  have ht := congrArg World.trace h
  simp at ht

/-- A request with a non-empty key and one of the three supported operation
kinds is never answered with the world left as it was. -/
theorem invoke_supported_touches {σ : Type} (K : OperationKinds) (r : Redis σ)
    (ctx : Context) (req : InvokeRequest) (w : World σ) (k : GoString)
    (hm : mapIndex req.Metadata (str "key") = (k, true)) (hk : k ≠ str "")
    (hop : req.Operation = K.CreateOperation ∨ req.Operation = K.GetOperation ∨
      req.Operation = K.DeleteOperation)
    (res : Option InvokeResponse × Option GoError) :
    Invoke K r ctx req w ≠ some (res, w) := by
  unfold Invoke
  simp only [hm, hk, ne_eq, not_false_eq_true, and_self, if_true]
  cases hcl : r.client with
  | none =>
    rcases hop with h | h | h <;> split_ifs <;> simp_all
  | some c =>
    have hD := world_trace_grows w (c.Del ctx k w.store).2 (Event.Del ctx k) w.nextCtx
    have hG := world_trace_grows w (c.Get ctx k w.store).2 (Event.Get ctx k) w.nextCtx
    have hW := world_trace_grows w
      (c.DoWrite ctx [Arg.ofString (str "SET"), Arg.ofString k, Arg.ofBytes req.Data]
        w.store).2
      (Event.DoWrite ctx [Arg.ofString (str "SET"), Arg.ofString k, Arg.ofBytes req.Data])
      w.nextCtx
    split_ifs with h1 h2 h3
    · simp only [callDel]
      split <;> simp [hD]
    · simp only [callGet]
      split <;> simp [hG]
    · simp only [callDoWrite]
      split <;> simp [hW]
    · rcases hop with h | h | h
      · exact absurd h h3
      · exact absurd h h2
      · exact absurd h h1

/-- A request with a non-empty key and one of the three supported operation
kinds makes `Invoke` panic on an adapter that holds no client. -/
theorem invoke_nil_client {σ : Type} (K : OperationKinds) (r : Redis σ)
    (hcl : r.client = none) (ctx : Context) (req : InvokeRequest) (w : World σ)
    (k : GoString) (hm : mapIndex req.Metadata (str "key") = (k, true)) (hk : k ≠ str "")
    (hop : req.Operation = K.CreateOperation ∨ req.Operation = K.GetOperation ∨
      req.Operation = K.DeleteOperation) :
    Invoke K r ctx req w = none := by
  unfold Invoke
  simp only [hm, hk, ne_eq, not_false_eq_true, and_self, if_true, hcl]
  rcases hop with h | h | h <;> split_ifs <;> simp_all

/-- C9: `Operations` returns a list of three operation kinds without
duplicates, whose members are exactly Create, Get and Delete, whatever the
state of the adapter.  For a request with a non-empty key: an operation kind
outside the list is rejected with the "invalid operation type" error and no
store call; an operation kind in the list is never rejected by `Invoke`
itself: on an adapter with a client exactly one store call is made, the one
of that operation kind, and the error returned is the error that call
returned (nil when it succeeds); on an adapter without a client the call
panics.  So the operation kind is in the list exactly when `Invoke` does not
answer with the "invalid operation type" error and the world untouched. -/
theorem operations_supported {σ : Type} (K : OperationKinds) (hK : K.Distinct) :
    (∀ r : Redis σ, (Operations K r).length = 3 ∧ (Operations K r).Nodup ∧
      ∀ op : OperationKind, op ∈ Operations K r ↔
        op = K.CreateOperation ∨ op = K.GetOperation ∨ op = K.DeleteOperation) ∧
    (∀ r r' : Redis σ, Operations K r = Operations K r') ∧
    (∀ (r : Redis σ) (ctx : Context) (req : InvokeRequest) (w : World σ) (k : GoString),
      mapIndex req.Metadata (str "key") = (k, true) → k ≠ str "" →
      (req.Operation ∉ Operations K r →
        Invoke K r ctx req w
          = some ((none, some (GoError.errorString
              (str "invalid operation type: " ++ req.Operation))), w)) ∧
      (req.Operation ∈ Operations K r →
        (r.client = none → Invoke K r ctx req w = none) ∧
        (∀ c : RedisClient σ, r.client = some c →
          (req.Operation = K.DeleteOperation ∧
            (Invoke K r ctx req w).map (fun x => (x.1.2, x.2))
              = some ((c.Del ctx k w.store).1,
                  ⟨(c.Del ctx k w.store).2, w.trace ++ [Event.Del ctx k], w.nextCtx⟩)) ∨
          (req.Operation = K.GetOperation ∧
            (Invoke K r ctx req w).map (fun x => (x.1.2, x.2))
              = some ((c.Get ctx k w.store).1.2,
                  ⟨(c.Get ctx k w.store).2, w.trace ++ [Event.Get ctx k], w.nextCtx⟩)) ∨
          (req.Operation = K.CreateOperation ∧
            (Invoke K r ctx req w).map (fun x => (x.1.2, x.2))
              = some ((c.DoWrite ctx
                    [Arg.ofString (str "SET"), Arg.ofString k, Arg.ofBytes req.Data]
                    w.store).1,
                  ⟨(c.DoWrite ctx
                      [Arg.ofString (str "SET"), Arg.ofString k, Arg.ofBytes req.Data]
                      w.store).2,
                    w.trace ++ [Event.DoWrite ctx
                      [Arg.ofString (str "SET"), Arg.ofString k, Arg.ofBytes req.Data]],
                    w.nextCtx⟩)))) ∧
      (req.Operation ∈ Operations K r ↔
        Invoke K r ctx req w
          ≠ some ((none, some (GoError.errorString
              (str "invalid operation type: " ++ req.Operation))), w))) := by
  have hK' := hK
  obtain ⟨hdg, hdc, hgc⟩ := hK
  have hmem : ∀ (r : Redis σ) (op : OperationKind), op ∈ Operations K r ↔
      op = K.CreateOperation ∨ op = K.GetOperation ∨ op = K.DeleteOperation := by
    intro r op
    simp only [Operations, List.mem_cons, List.mem_singleton, List.not_mem_nil, or_false]
    tauto
  have hrej : ∀ (r : Redis σ) (ctx : Context) (req : InvokeRequest) (w : World σ)
      (k : GoString), mapIndex req.Metadata (str "key") = (k, true) → k ≠ str "" →
      req.Operation ∉ Operations K r →
      Invoke K r ctx req w
        = some ((none, some (GoError.errorString
            (str "invalid operation type: " ++ req.Operation))), w) := by
    intro r ctx req w k hm hk hop
    rw [hmem r] at hop
    push_neg at hop
    unfold Invoke
    simp [hm, hk, hop.1, hop.2.1, hop.2.2, invalidOperation_text]
  refine ⟨fun r => ⟨rfl, ?_, hmem r⟩, fun _ _ => rfl, ?_⟩
  · simp only [Operations, List.nodup_cons, List.mem_cons, List.mem_singleton,
      List.not_mem_nil, or_false, List.nodup_nil, and_true, not_false_eq_true]
    exact ⟨fun h => h.elim (fun h => hdc h.symm) (fun h => hgc h.symm), hdg⟩
  · intro r ctx req w k hm hk
    refine ⟨hrej r ctx req w k hm hk, fun hop => ⟨fun hcl => ?_, fun c hcl => ?_⟩, ?_⟩
    · exact invoke_nil_client K r hcl ctx req w k hm hk ((hmem r _).1 hop)
    · obtain ⟨hdel, hget, hcreate⟩ := invoke_dispatch K hK' r c hcl ctx req w k hm hk
      rcases (hmem r _).1 hop with h | h | h
      · refine Or.inr (Or.inr ⟨h, ?_⟩)
        rw [hcreate h]; rfl
      · refine Or.inr (Or.inl ⟨h, ?_⟩)
        rw [hget h]
        cases hg : (callGet c ctx k w).1.2 <;> simp [callGet] at hg ⊢ <;> simp [hg]
      · refine Or.inl ⟨h, ?_⟩
        rw [hdel h]; rfl
    · constructor
      · intro hop
        exact invoke_supported_touches K r ctx req w k hm hk ((hmem r _).1 hop) _
      · intro hne
        by_contra hop
        exact hne (hrej r ctx req w k hm hk hop)

set_option maxRecDepth 100000 in
theorem operations_supported_witness :
    (Operations sampleKinds (NewRedis ⟨0⟩ : Redis MemStore)).Nodup ∧
    Operations sampleKinds (NewRedis ⟨0⟩ : Redis MemStore) = Operations sampleKinds memRedis ∧
    Invoke sampleKinds memRedis (Context.host 7)
        { Data := [], Metadata := [(str "key", str "x")], Operation := str "list" } memWorldX
      = some ((none, some (GoError.errorString (str "invalid operation type: " ++ str "list"))),
          memWorldX) ∧
    Invoke sampleKinds (NewRedis ⟨0⟩) (Context.host 7)
        { Data := [], Metadata := [(str "key", str "x")], Operation := str "get" } memWorldX
      = none ∧
    Invoke sampleKinds memRedis (Context.host 7)
        { Data := [], Metadata := [(str "key", str "x")], Operation := str "get" } memWorldX
      ≠ some ((none, some (GoError.errorString (str "invalid operation type: " ++ str "get"))),
          memWorldX) :=
  ⟨((operations_supported sampleKinds (by decide)).1 (NewRedis ⟨0⟩)).2.1,
    (operations_supported sampleKinds (by decide)).2.1 (NewRedis ⟨0⟩) memRedis,
    ((operations_supported sampleKinds (by decide)).2.2 memRedis (Context.host 7)
      { Data := [], Metadata := [(str "key", str "x")], Operation := str "list" } memWorldX
      (str "x") (by decide) (by decide)).1 (by decide),
    (((operations_supported sampleKinds (by decide)).2.2 (NewRedis ⟨0⟩) (Context.host 7)
      { Data := [], Metadata := [(str "key", str "x")], Operation := str "get" } memWorldX
      (str "x") (by decide) (by decide)).2.1 (by decide)).1 rfl,
    ((operations_supported sampleKinds (by decide)).2.2 memRedis (Context.host 7)
      { Data := [], Metadata := [(str "key", str "x")], Operation := str "get" } memWorldX
      (str "x") (by decide) (by decide)).2.2.1 (by decide)⟩

/-! ## Close -/

/-- C10: on an adapter whose `Init` returned nil, `Close` first cancels the
context made by `Init` and then calls `Close` on the client, once; it returns
what that call returns, nil or the error, and the context is cancelled in the
world it leaves, whichever the call returns. -/
theorem close_after_init {σ : Type} (parse : ParseClientFromProperties σ) (r0 : Redis σ)
    (meta : BindingsMetadata) (w0 : World σ) (r : Redis σ) (w1 : World σ)
    (hinit : Init parse r0 meta w0 = some (none, r, w1)) (w : World σ) :
    ∃ c : RedisClient σ, r.client = some c ∧
      r.ctx = Context.withCancel Context.background w0.nextCtx ∧
      Close r w
        = some ((c.Close w.store).1,
            ⟨(c.Close w.store).2, w.trace ++ [Event.Cancel w0.nextCtx, Event.Close],
              w.nextCtx⟩) ∧
      (∀ (res : Option GoError) (w2 : World σ), Close r w = some (res, w2) →
        w2.cancelled r.ctx = true ∧ res = (c.Close w.store).1) := by
  obtain ⟨c, -, hcl, -, hctx, hcancel⟩ := init_success parse r0 meta w0 r w1 hinit
  have hclose : Close r w
      = some ((c.Close w.store).1,
          ⟨(c.Close w.store).2, w.trace ++ [Event.Cancel w0.nextCtx, Event.Close],
            w.nextCtx⟩) := by
    unfold Close
    simp [hcl, hcancel, callClose, CancelFunc.call]
  refine ⟨c, hcl, hctx, hclose, ?_⟩
  intro res w2 h
  rw [hclose] at h
  simp only [Option.some.injEq, Prod.mk.injEq] at h
  obtain ⟨h1, h2⟩ := h
  subst h2
  exact ⟨by simp [World.cancelled, hctx], h1.symm⟩

theorem close_after_init_witness :
    Close ({ client := some memClient, clientSettings := some ⟨str "localhost:6379"⟩,
             logger := ⟨0⟩, ctx := Context.withCancel Context.background 1,
             cancel := some ⟨1⟩ } : Redis MemStore) memWorldX
      = some (none, ⟨⟨[(str "x", [52, 50])], false⟩, [Event.Cancel 1, Event.Close], 1⟩) := by
  obtain ⟨c, hc, -, h, -⟩ := close_after_init memParse (NewRedis ⟨0⟩) memMeta memWorld
    { client := some memClient, clientSettings := some ⟨str "localhost:6379"⟩,
      logger := ⟨0⟩, ctx := Context.withCancel Context.background 1, cancel := some ⟨1⟩ }
    ⟨⟨[], true⟩, [Event.PingResult (Context.withCancel Context.background 1)], 2⟩
    rfl memWorldX
  simp only [Option.some.injEq] at hc
  subst hc
  exact h

end RedisBinding
